import Mathlib

/-!
Verification of the storage-runtime core of the my_bustub repository against
its specification: the disk extendible hash table, the LRU-K replacer, the
page guards and the disk scheduler.

Machine integers: all `size_t`/`uint32_t` quantities are embedded as `Nat`;
the source never relies on overflow on the paths modelled here (hash values
are reduced mod 2^32 where the source works on 32-bit hashes).  `page_id_t`
values are non-negative on every modelled path and are embedded as `Nat`.
-/

/-! ### Extendible hash table: on-page structures

The bucket, directory and header page implementations are not among the
repository's source files (only `extendible_htable_header_page.h` declares
the header interface), so they are modelled from the spec:
  - Header: "fixed array of 2^HEADER_MAX_DEPTH directory page ids plus
    max_depth. Hash keys are mapped to a directory index by taking the top
    max_depth bits of the 32-bit hash."
  - Directory: "global_depth; per-slot local_depth; per-slot bucket_page_id.
    Size = 2^global_depth. Slots addressed by the low global_depth bits of
    the hash. The split image of index i at local depth d is
    i XOR (1 << (d-1))."
  - Bucket: "sorted-by-insertion pairs (key,value) with a current size
    <= max_size", binary layout "uint32 size; uint32 max_size; followed by
    (key,value) pairs packed in insertion order".
Keys and values are embedded as `Nat` (the source instantiates
`DiskExtendibleHashTable<int, int, IntComparator>`). -/

/-- Modelled from the spec: a bucket page.  `arr` is the backing pair array
of the page (capacity `maxSize`); the first `size` entries are live, and
entries past `size` keep whatever bytes a removal's `memmove` left behind,
as on a real page. -/
structure BucketPage where
  size : Nat
  maxSize : Nat
  arr : List (Nat × Nat)
deriving DecidableEq, Repr

/-- Modelled from the spec: a fresh zeroed bucket page after `Init(max_size)`. -/
def bucketInit (maxSize : Nat) : BucketPage :=
  { size := 0, maxSize := maxSize, arr := List.replicate maxSize (0, 0) }

/-- Modelled from the spec: `IsFull` — the size has reached `max_size`. -/
def BucketPage.isFull (b : BucketPage) : Bool :=
  b.size == b.maxSize

/-- Modelled from the spec: `KeyAt(i)` reads the key slot `i` of the backing
array (the source may call it past the live prefix during the rehash loop). -/
def BucketPage.keyAt (b : BucketPage) (i : Nat) : Nat :=
  (b.arr.getD i (0, 0)).1

/-- Modelled from the spec: `ValueAt(i)`. -/
def BucketPage.valueAt (b : BucketPage) (i : Nat) : Nat :=
  (b.arr.getD i (0, 0)).2

/-- Modelled from the spec: `Lookup(key)` scans the live entries for the key
and yields its single value. -/
def BucketPage.lookup (b : BucketPage) (k : Nat) : Option Nat :=
  ((b.arr.take b.size).find? (fun p => p.1 == k)).map (fun p => p.2)

/-- Index of `k` among the live entries, if present. -/
def BucketPage.findIdx (b : BucketPage) (k : Nat) : Option Nat :=
  (b.arr.take b.size).findIdx? (fun p => p.1 == k)

/-- Modelled from the spec: `Remove(key)` — when the key is at live index
`i`, the entries after it are moved down one slot (`memmove`), the size
drops by one, and the slot past the new end keeps its old bytes. -/
def BucketPage.removeKey (b : BucketPage) (k : Nat) : BucketPage × Bool :=
  match b.findIdx k with
  | none => (b, false)
  | some i =>
      ({ b with
          size := b.size - 1,
          arr := b.arr.take i ++ ((b.arr.drop (i + 1)).take (b.size - 1 - i))
                   ++ b.arr.drop (b.size - 1) },
       true)

/-- Modelled from the spec: `Insert(key, value)` — fails when the bucket is
full or the key is already present (each key holds a single value),
otherwise appends the pair at the end of the live prefix. -/
def BucketPage.insertKV (b : BucketPage) (k v : Nat) : BucketPage × Bool :=
  if b.isFull then (b, false)
  else if (b.lookup k).isSome then (b, false)
  else
    ({ b with
        size := b.size + 1,
        arr := b.arr.take b.size ++ [(k, v)] ++ b.arr.drop (b.size + 1) },
     true)

/-- Modelled from the spec: a directory page.  The slot arrays are embedded
as functions from slot index; only indices below `2^globalDepth` are ever
addressed by the table code. -/
structure DirPage where
  maxDepth : Nat
  globalDepth : Nat
  localDepths : Nat → Nat
  bucketPageIds : Nat → Nat

/-- Modelled from the spec: `Size()` = 2^global_depth. -/
def DirPage.dirSize (d : DirPage) : Nat := 2 ^ d.globalDepth

/-- Modelled from the spec: `MaxSize()` = 2^max_depth. -/
def DirPage.dirMaxSize (d : DirPage) : Nat := 2 ^ d.maxDepth

/-- Modelled from the spec: slots are addressed by the low global_depth bits
of the hash. -/
def DirPage.hashToBucketIndex (d : DirPage) (hash : Nat) : Nat :=
  hash % 2 ^ d.globalDepth

def DirPage.getBucketPageId (d : DirPage) (i : Nat) : Nat :=
  d.bucketPageIds i

def DirPage.getLocalDepth (d : DirPage) (i : Nat) : Nat :=
  d.localDepths i

def DirPage.setBucketPageId (d : DirPage) (i pid : Nat) : DirPage :=
  { d with bucketPageIds := fun j => if j = i then pid else d.bucketPageIds j }

def DirPage.setLocalDepth (d : DirPage) (i depth : Nat) : DirPage :=
  { d with localDepths := fun j => if j = i then depth else d.localDepths j }

def DirPage.incrLocalDepth (d : DirPage) (i : Nat) : DirPage :=
  d.setLocalDepth i (d.getLocalDepth i + 1)

/-- Modelled from the spec: "The split image of index i at local depth d is
i XOR (1 << (d-1))", taken at the slot's current local depth. -/
def DirPage.getSplitImageIndex (d : DirPage) (i : Nat) : Nat :=
  i ^^^ (1 <<< (d.getLocalDepth i - 1))

/-- Modelled from the spec: `IncrGlobalDepth` doubles the directory; "every
new slot inherits the bucket page id of its sibling" (and its local depth —
the source comments call out that the local-depth increment must precede
this copy, which is only meaningful if local depths are copied too). -/
def DirPage.incrGlobalDepth (d : DirPage) : DirPage :=
  { d with
      globalDepth := d.globalDepth + 1,
      localDepths := fun j =>
        if j < 2 ^ d.globalDepth then d.localDepths j
        else d.localDepths (j - 2 ^ d.globalDepth),
      bucketPageIds := fun j =>
        if j < 2 ^ d.globalDepth then d.bucketPageIds j
        else d.bucketPageIds (j - 2 ^ d.globalDepth) }

/-- Modelled from the spec: the header page
(`extendible_htable_header_page.h` declares this interface; the
implementation is absent from the source files). -/
structure HeaderPage where
  maxDepth : Nat
  directoryPageIds : Nat → Nat

/-- Modelled from the spec: "Hash keys are mapped to a directory index by
taking the top max_depth bits of the 32-bit hash." -/
def HeaderPage.hashToDirectoryIndex (h : HeaderPage) (hash : Nat) : Nat :=
  (hash % 2 ^ 32) >>> (32 - h.maxDepth)

def HeaderPage.getDirectoryPageId (h : HeaderPage) (i : Nat) : Nat :=
  h.directoryPageIds i

/-! ### The disk extendible hash table
(src/container/disk/hash/disk_extendible_hash_table.cpp)

The table is embedded over three page stores indexed by page id; fetching a
page through the buffer pool becomes reading the store, and `NewPageGuarded`
becomes allocating `nextPageId`.  Pin counts and latches do not affect the
page contents the claims are about and are elided at this layer. -/

structure HashTable where
  hashFn : Nat → Nat
  headerPageId : Nat
  bucketMaxSize : Nat
  headerPages : Nat → HeaderPage
  dirPages : Nat → DirPage
  bucketPages : Nat → BucketPage
  nextPageId : Nat

/-- `Hash(key)`: the injected 32-bit hash function. -/
def HashTable.hash (ht : HashTable) (k : Nat) : Nat :=
  ht.hashFn k % 2 ^ 32

/-- The header walk shared by GetValue/Insert/Remove (source lines 90-93,
126-129, 243-246): header page, directory index, directory page id. -/
def HashTable.ownerDirPageId (ht : HashTable) (key : Nat) : Nat :=
  let hashKey := ht.hash key
  let headerPage := ht.headerPages ht.headerPageId
  headerPage.getDirectoryPageId (headerPage.hashToDirectoryIndex hashKey)

def HashTable.ownerDir (ht : HashTable) (key : Nat) : DirPage :=
  ht.dirPages (ht.ownerDirPageId key)

def HashTable.ownerBucketIndex (ht : HashTable) (key : Nat) : Nat :=
  (ht.ownerDir key).hashToBucketIndex (ht.hash key)

def HashTable.ownerBucket (ht : HashTable) (key : Nat) : BucketPage :=
  ht.bucketPages ((ht.ownerDir key).getBucketPageId (ht.ownerBucketIndex key))

/-- The tail of `Insert` on the full-bucket path (source lines 181-203):
the rehash loop over the old bucket's captured size, the final insert of
the new pair, and the write-back of the two buckets and the directory. -/
def splitFinish (ht : HashTable) (hashKey key value : Nat)
    (directoryPageId : Nat) (dir : DirPage) (bucketIndex bucketPageId : Nat)
    (bucketPage : BucketPage) (splitImagePageId : Nat)
    (splitImagePage : BucketPage) : HashTable × Bool :=
  let bucketSize := bucketPage.size
  let rehashed :=
    (List.range bucketSize).foldl
      (fun (p : BucketPage × BucketPage) i =>
        let iKey := p.1.keyAt i
        if bucketIndex = dir.hashToBucketIndex (ht.hash iKey) then p
        else
          let iValue := p.1.valueAt i
          ((p.1.removeKey iKey).1, (p.2.insertKV iKey iValue).1))
      (bucketPage, splitImagePage)
  let final :=
    if bucketIndex = dir.hashToBucketIndex hashKey then
      ((rehashed.1.insertKV key value).1, rehashed.2)
    else
      (rehashed.1, (rehashed.2.insertKV key value).1)
  ({ ht with
      nextPageId := ht.nextPageId + 1,
      dirPages := fun pid =>
        if pid = directoryPageId then dir else ht.dirPages pid,
      bucketPages := fun pid =>
        if pid = splitImagePageId then final.2
        else if pid = bucketPageId then final.1
        else ht.bucketPages pid },
   true)

/-- `DiskExtendibleHashTable::Insert` (source lines 118-211).  Note that the
second depth case (source line 170) tests `global_depth < local_depth`,
exactly as the source writes it. -/
def HashTable.insert (ht : HashTable) (key value : Nat) : HashTable × Bool :=
  let hashKey := ht.hash key
  let directoryPageId := ht.ownerDirPageId key
  let directoryPage := ht.dirPages directoryPageId
  let bucketIndex := directoryPage.hashToBucketIndex hashKey
  let bucketPageId := directoryPage.getBucketPageId bucketIndex
  let bucketPage := ht.bucketPages bucketPageId
  if bucketPage.isFull then
    -- NewPageGuarded allocates and initializes the split-image page first
    let splitImagePageId := ht.nextPageId
    let splitImagePage := bucketInit ht.bucketMaxSize
    if directoryPage.globalDepth == directoryPage.getLocalDepth bucketIndex then
      if directoryPage.dirSize == directoryPage.dirMaxSize then
        ({ ht with
            nextPageId := ht.nextPageId + 1,
            bucketPages := fun pid =>
              if pid = splitImagePageId then splitImagePage
              else ht.bucketPages pid },
         false)
      else
        let d1 := (directoryPage.incrLocalDepth bucketIndex).incrGlobalDepth
        let d2 := d1.setBucketPageId (d1.getSplitImageIndex bucketIndex) splitImagePageId
        splitFinish ht hashKey key value directoryPageId d2 bucketIndex
          bucketPageId bucketPage splitImagePageId splitImagePage
    else if directoryPage.globalDepth < directoryPage.getLocalDepth bucketIndex then
      let d1 := directoryPage.incrLocalDepth bucketIndex
      let d2 := d1.setBucketPageId (d1.getSplitImageIndex bucketIndex) splitImagePageId
      splitFinish ht hashKey key value directoryPageId d2 bucketIndex
        bucketPageId bucketPage splitImagePageId splitImagePage
    else
      splitFinish ht hashKey key value directoryPageId directoryPage bucketIndex
        bucketPageId bucketPage splitImagePageId splitImagePage
  else
    ({ ht with
        bucketPages := fun pid =>
          if pid = directoryPage.getBucketPageId bucketIndex then
            (bucketPage.insertKV key value).1
          else ht.bucketPages pid },
     true)

/-- `DiskExtendibleHashTable::GetValue` (source lines 82-111): walk to the
owning bucket, look the key up, push the value on a hit.  The source
performs no store to any page on this path. -/
def HashTable.getValue (ht : HashTable) (key : Nat) (result : List Nat) :
    HashTable × Bool × List Nat :=
  let hashKey := ht.hash key
  let directoryPageId := ht.ownerDirPageId key
  let directoryPage := ht.dirPages directoryPageId
  let bucketIndex := directoryPage.hashToBucketIndex hashKey
  let bucketPage := ht.bucketPages (directoryPage.getBucketPageId bucketIndex)
  match bucketPage.lookup key with
  | some v => (ht, true, result ++ [v])
  | none => (ht, false, result)

/-! ### Theorems on the extendible hash table -/

/-- Helper: the split path of `Insert` always returns true. -/
theorem splitFinish_snd (ht : HashTable) (hashKey key value : Nat)
    (directoryPageId : Nat) (dir : DirPage) (bucketIndex bucketPageId : Nat)
    (bucketPage : BucketPage) (splitImagePageId : Nat)
    (splitImagePage : BucketPage) :
    (splitFinish ht hashKey key value directoryPageId dir bucketIndex
      bucketPageId bucketPage splitImagePageId splitImagePage).2 = true := rfl

/-- Concrete table for C1: directory page 5 has global depth 2 and local
depths [2, 1, 2, 1]; slots 1 and 3 share the full bucket page 21 (local
depth 1 < global depth 2), exactly the shape left behind by a directory
doubling.  The hash function is the identity. -/
def htC1 : HashTable :=
  { hashFn := fun k => k,
    headerPageId := 0,
    bucketMaxSize := 2,
    headerPages := fun _ => { maxDepth := 0, directoryPageIds := fun _ => 5 },
    dirPages := fun _ =>
      { maxDepth := 2, globalDepth := 2,
        localDepths := fun j =>
          if j = 0 then 2 else if j = 1 then 1 else if j = 2 then 2
          else if j = 3 then 1 else 0,
        bucketPageIds := fun j =>
          if j = 0 then 20 else if j = 1 then 21 else if j = 2 then 22
          else if j = 3 then 21 else 0 },
    bucketPages := fun pid =>
      if pid = 21 then { size := 2, maxSize := 2, arr := [(1, 101), (3, 103)] }
      else bucketInit 2,
    nextPageId := 30 }

/-- Claim C1 evaluated at its failing input.  Inserting key 5 (hash 5, bucket
index 1) into `htC1` finds bucket 21 full with local depth 1 < global
depth 2.  The claim (and the spec's step 3b) require the local depth of
index 1 to become 2 and the new bucket page 30 to be installed at index
1 XOR (1 << 1) = 3.  The source's second depth case tests
`global_depth < local_depth` instead of `>`, so neither happens: the local
depth stays 1, index 3 still holds page 21, no directory slot points at the
new page 30, and the rehashed pair (3, 103) is stranded on the orphaned page
30 — a following GetValue(3) misses.  (Only the claim's "without changing
the global depth" part holds.) -/
theorem c1_split_image_never_installed :
    (htC1.insert 5 105).2 = true ∧
    ((htC1.insert 5 105).1.dirPages 5).getLocalDepth 1 = 1 ∧
    ((htC1.insert 5 105).1.dirPages 5).getBucketPageId 3 = 21 ∧
    ((htC1.insert 5 105).1.dirPages 5).globalDepth = 2 ∧
    ((List.range 4).all fun j =>
      ((htC1.insert 5 105).1.dirPages 5).getBucketPageId j != 30) = true ∧
    ((htC1.insert 5 105).1.bucketPages 30).lookup 3 = some 103 ∧
    ((htC1.insert 5 105).1.getValue 3 []).2.1 = false :=
  ⟨rfl, rfl, rfl, rfl, rfl, rfl, rfl⟩

/-- Concrete table for C2: global depth 0, directory max depth 1, one bucket
(page 21) full with pairs (1,101), (3,103), (5,105) (max size 3); identity
hash. -/
def htC2 : HashTable :=
  { hashFn := fun k => k,
    headerPageId := 0,
    bucketMaxSize := 3,
    headerPages := fun _ => { maxDepth := 0, directoryPageIds := fun _ => 5 },
    dirPages := fun _ =>
      { maxDepth := 1, globalDepth := 0,
        localDepths := fun _ => 0,
        bucketPageIds := fun _ => 21 },
    bucketPages := fun pid =>
      if pid = 21 then
        { size := 3, maxSize := 3, arr := [(1, 101), (3, 103), (5, 105)] }
      else bucketInit 3,
    nextPageId := 30 }

/-- Claim C2 evaluated at its failing input.  Inserting key 7 into `htC2`
splits the full bucket: global depth becomes 1, the split image (page 30)
is installed at index 1, and all three old pairs have odd hashes, so every
one of them should move to index 1.  The rehash loop walks indices 0..2 of
the *old* size while `Remove` shifts the remaining live entries down, so
after removing key 1 at index 0 the pair (3, 103) slides to index 0 —
already behind the scan — and index 2 re-reads the stale copy of (5, 105)
left by the shifts.  (3, 103) is never examined: it stays in the old bucket
21 although the low global-depth bit of hash 3 is 1, it is absent from the
split-image bucket 30, and GetValue(3) now misses. -/
theorem c2_rehash_strands_pair :
    (htC2.insert 7 107).2 = true ∧
    ((htC2.insert 7 107).1.dirPages 5).globalDepth = 1 ∧
    ((htC2.insert 7 107).1.dirPages 5).hashToBucketIndex (htC2.hash 3) = 1 ∧
    ((htC2.insert 7 107).1.dirPages 5).getBucketPageId 1 = 30 ∧
    ((htC2.insert 7 107).1.dirPages 5).getBucketPageId 0 = 21 ∧
    ((htC2.insert 7 107).1.bucketPages 21).lookup 3 = some 103 ∧
    ((htC2.insert 7 107).1.bucketPages 30).lookup 3 = none ∧
    ((htC2.insert 7 107).1.getValue 3 []).2.1 = false :=
  ⟨rfl, rfl, rfl, rfl, rfl, rfl, rfl, rfl⟩

/-- Claim C8: `Insert` returns false exactly when the owning bucket is full,
its slot's local depth equals the global depth, and the directory has
reached its maximum size; and on that path the header, the directory and
every already-allocated bucket page are unchanged (the only state change is
the freshly allocated split-image page at the old `nextPageId`). -/
theorem c8_insert_false_iff_growth_blocked (ht : HashTable) (key value : Nat) :
    ((ht.insert key value).2 = false ↔
      ((ht.ownerBucket key).isFull = true ∧
        (ht.ownerDir key).globalDepth
          = (ht.ownerDir key).getLocalDepth (ht.ownerBucketIndex key) ∧
        (ht.ownerDir key).dirSize = (ht.ownerDir key).dirMaxSize)) ∧
    ((ht.insert key value).2 = false →
      (ht.insert key value).1.dirPages = ht.dirPages ∧
      (ht.insert key value).1.headerPages = ht.headerPages ∧
      ∀ pid, pid ≠ ht.nextPageId →
        (ht.insert key value).1.bucketPages pid = ht.bucketPages pid) := by
  simp only [HashTable.insert, HashTable.ownerBucket, HashTable.ownerBucketIndex,
    HashTable.ownerDir]
  split_ifs with h1 h2 h3 h4
  · simp only [beq_iff_eq] at h2 h3
    constructor
    · simp [h1, h2, h3]
    · intro _
      refine ⟨rfl, rfl, fun pid hpid => ?_⟩
      simp [hpid]
  · simp only [beq_iff_eq] at h3
    simp [splitFinish_snd, h3]
  · simp only [beq_iff_eq] at h2
    simp [splitFinish_snd, h2]
  · simp only [beq_iff_eq] at h2
    simp [splitFinish_snd, h2]
  · simp [h1]

/-- Concrete table for the C8 witness: directory max depth 0 (size 1 is
already the maximum), bucket 21 full, local depth = global depth = 0. -/
def htC8 : HashTable :=
  { hashFn := fun k => k,
    headerPageId := 0,
    bucketMaxSize := 1,
    headerPages := fun _ => { maxDepth := 0, directoryPageIds := fun _ => 5 },
    dirPages := fun _ =>
      { maxDepth := 0, globalDepth := 0, localDepths := fun _ => 0,
        bucketPageIds := fun _ => 21 },
    bucketPages := fun pid =>
      if pid = 21 then { size := 1, maxSize := 1, arr := [(0, 50)] }
      else bucketInit 1,
    nextPageId := 10 }

/-- Witness for C8: on `htC8`, inserting (2, 7) is refused (the directory
cannot grow) and the directory, header and existing bucket 21 are intact. -/
theorem c8_witness :
    (htC8.insert 2 7).2 = false ∧
    (htC8.insert 2 7).1.dirPages = htC8.dirPages ∧
    (htC8.insert 2 7).1.headerPages = htC8.headerPages ∧
    (htC8.insert 2 7).1.bucketPages 21 = htC8.bucketPages 21 := by
  have h := c8_insert_false_iff_growth_blocked htC8 2 7
  exact ⟨rfl, (h.2 rfl).1, (h.2 rfl).2.1, (h.2 rfl).2.2 21 (by decide)⟩

/-- Claim C10: `GetValue` leaves every page of the table exactly as it was
— it returns the table unchanged — and its only output effect is appending
the owning bucket's value for the key to the result vector on a hit. -/
theorem c10_getValue_pure (ht : HashTable) (key : Nat) (result : List Nat) :
    (ht.getValue key result).1 = ht ∧
    (ht.getValue key result).2 =
      (match (ht.ownerBucket key).lookup key with
       | some v => (true, result ++ [v])
       | none => (false, result)) := by
  rcases hl : (ht.ownerBucket key).lookup key with _ | v <;>
    simp only [HashTable.ownerBucket, HashTable.ownerBucketIndex,
      HashTable.ownerDir] at hl <;>
    simp [HashTable.getValue, hl]

/-! ### LRU-K replacer (src/buffer/lru_k_replacer.cpp)

`node_store_` is a `std::map<frame_id_t, shared_ptr<LRUKNode>>`, iterated in
ascending frame-id order; it is embedded as an association list kept sorted
by frame id.  Frame ids are validated non-negative by `RecordAccess`, so
they are embedded as `Nat`; the `-1` accumulator sentinel of `Evict` is kept
as an `Int`.  `INF` (from the header, absent from the source files) stands
for +infinity and is modelled as the largest `size_t` value.  The local
variable `early_timestamp` of `Evict` is declared without an initializer;
its indeterminate initial value is made explicit as the `junk` argument. -/

def INF : Nat := 2 ^ 64 - 1

structure LRUKNode where
  k : Nat
  history : List Nat
  isEvictable : Bool
deriving DecidableEq, Repr

/-- `LRUKNode::GetKDistance`: INF with fewer than k accesses, else the gap
from the current timestamp back to the k-th most recent access (the source
walks the iterator k-1 steps from the front of `history_`). -/
def LRUKNode.getKDistance (n : LRUKNode) (currentTimestamp : Nat) : Nat :=
  if n.history.length < n.k then INF
  else currentTimestamp - n.history.getD (n.k - 1) 0

/-- `LRUKNode::GetEarlyTimestamp`: the back of `history_`, i.e. the oldest
remembered access. -/
def LRUKNode.getEarlyTimestamp (n : LRUKNode) : Nat :=
  n.history.getLastD 0

structure LRUKReplacer where
  currentTimestamp : Nat
  nodeStore : List (Nat × LRUKNode)
  evictableSize : Nat
  replacerSize : Nat
  k : Nat
deriving DecidableEq, Repr

/-- One iteration of `Evict`'s scan over `node_store_` (source lines 26-44):
the accumulator is (mx_k_distance, early_timestamp, evict_id). -/
def evictStep (currentTimestamp : Nat) (acc : Nat × Nat × Int)
    (e : Nat × LRUKNode) : Nat × Nat × Int :=
  if !e.2.isEvictable then acc
  else
    let nowKDistance := e.2.getKDistance currentTimestamp
    if nowKDistance > acc.1 then
      (nowKDistance, e.2.getEarlyTimestamp, (e.1 : Int))
    else if nowKDistance = acc.1 then
      let nowEarlyTimestamp := e.2.getEarlyTimestamp
      if acc.2.1 > nowEarlyTimestamp then (acc.1, nowEarlyTimestamp, (e.1 : Int))
      else acc
    else acc

/-- `LRUKReplacer::Evict` (source lines 20-55).  `junk` is the indeterminate
initial value of the uninitialized local `early_timestamp`; `mx_k_distance`
starts at 0 and `evict_id` at -1. -/
def LRUKReplacer.evict (r : LRUKReplacer) (junk : Nat) :
    Option Nat × LRUKReplacer :=
  let acc := r.nodeStore.foldl (evictStep r.currentTimestamp) (0, junk, -1)
  if acc.2.2 = -1 then (none, r)
  else
    (some acc.2.2.toNat,
     { r with
        nodeStore := r.nodeStore.eraseP (fun e => e.1 == acc.2.2.toNat),
        evictableSize := r.evictableSize - 1 })

/-- Insertion into the id-sorted node store (`std::map` keeps keys ordered). -/
def insertNode (fid : Nat) (n : LRUKNode) :
    List (Nat × LRUKNode) → List (Nat × LRUKNode)
  | [] => [(fid, n)]
  | e :: rest =>
      if fid < e.1 then (fid, n) :: e :: rest else e :: insertNode fid n rest

/-- In-place update of the node stored under `fid`. -/
def updateNode (fid : Nat) (n : LRUKNode) :
    List (Nat × LRUKNode) → List (Nat × LRUKNode)
  | [] => []
  | e :: rest =>
      if e.1 = fid then (fid, n) :: rest else e :: updateNode fid n rest

/-- `LRUKReplacer::RecordAccess` (source lines 57-68): advance the
timestamp, assert the frame id is in range (`none` embeds the
`BUSTUB_ASSERT` abort), then create the node with its first timestamp —
`LRUKNode`'s constructor pushes it, and the header initializes
`is_evictable_` to false — or push the new timestamp onto the history. -/
def LRUKReplacer.recordAccess (r : LRUKReplacer) (fid : Nat) :
    Option LRUKReplacer :=
  let ts := r.currentTimestamp + 1
  if fid < r.replacerSize then
    match r.nodeStore.lookup fid with
    | none =>
        some { r with
                currentTimestamp := ts,
                nodeStore :=
                  insertNode fid
                    { k := r.k, history := [ts], isEvictable := false }
                    r.nodeStore }
    | some n =>
        some { r with
                currentTimestamp := ts,
                nodeStore :=
                  updateNode fid { n with history := ts :: n.history }
                    r.nodeStore }
  else none

/-- `LRUKReplacer::SetEvictable` (source lines 70-87): assert the frame is
known (`none` embeds the abort), and adjust the evictable counter only when
the flag changes. -/
def LRUKReplacer.setEvictable (r : LRUKReplacer) (fid : Nat)
    (flag : Bool) : Option LRUKReplacer :=
  match r.nodeStore.lookup fid with
  | none => none
  | some n =>
      if n.isEvictable != flag then
        some { r with
                evictableSize :=
                  if flag then r.evictableSize + 1 else r.evictableSize - 1,
                nodeStore := updateNode fid { n with isEvictable := flag } r.nodeStore }
      else some r

/-- The spec's LRU-K selection order: `a` is at least as good a victim as
`b` when `b`'s k-distance is smaller, or they tie and `a`'s oldest
remembered access is no later than `b`'s. -/
def Beats (currentTimestamp : Nat) (a b : LRUKNode) : Prop :=
  b.getKDistance currentTimestamp < a.getKDistance currentTimestamp ∨
    (b.getKDistance currentTimestamp = a.getKDistance currentTimestamp ∧
      a.getEarlyTimestamp ≤ b.getEarlyTimestamp)

theorem beats_refl (currentTimestamp : Nat) (a : LRUKNode) :
    Beats currentTimestamp a a :=
  Or.inr ⟨rfl, le_rfl⟩

theorem beats_trans (currentTimestamp : Nat) (a b c : LRUKNode)
    (hab : Beats currentTimestamp a b) (hbc : Beats currentTimestamp b c) :
    Beats currentTimestamp a c := by
  rcases hab with hab | ⟨hab1, hab2⟩ <;> rcases hbc with hbc | ⟨hbc1, hbc2⟩
  · exact Or.inl (lt_trans hbc hab)
  · exact Or.inl (hbc1 ▸ hab)
  · exact Or.inl (hab1 ▸ hbc)
  · exact Or.inr ⟨hbc1.trans hab1, le_trans hab2 hbc2⟩

theorem evictStep_skip (ct : Nat) (acc : Nat × Nat × Int) (e : Nat × LRUKNode)
    (h : e.2.isEvictable = false) : evictStep ct acc e = acc := by
  simp [evictStep, h]

theorem evictStep_gt (ct : Nat) (acc : Nat × Nat × Int) (e : Nat × LRUKNode)
    (hev : e.2.isEvictable = true) (h : e.2.getKDistance ct > acc.1) :
    evictStep ct acc e = (e.2.getKDistance ct, e.2.getEarlyTimestamp, (e.1 : Int)) := by
  simp [evictStep, hev, h]

theorem evictStep_tie_better (ct : Nat) (acc : Nat × Nat × Int)
    (e : Nat × LRUKNode) (hev : e.2.isEvictable = true)
    (h1 : ¬ e.2.getKDistance ct > acc.1) (h2 : e.2.getKDistance ct = acc.1)
    (h3 : acc.2.1 > e.2.getEarlyTimestamp) :
    evictStep ct acc e = (acc.1, e.2.getEarlyTimestamp, (e.1 : Int)) := by
  simp [evictStep, hev, h1, h2, h3]

theorem evictStep_tie_keep (ct : Nat) (acc : Nat × Nat × Int)
    (e : Nat × LRUKNode) (hev : e.2.isEvictable = true)
    (h1 : ¬ e.2.getKDistance ct > acc.1) (h2 : e.2.getKDistance ct = acc.1)
    (h3 : ¬ acc.2.1 > e.2.getEarlyTimestamp) :
    evictStep ct acc e = acc := by
  simp [evictStep, hev, h1, h2, h3]

theorem evictStep_lt (ct : Nat) (acc : Nat × Nat × Int) (e : Nat × LRUKNode)
    (hev : e.2.isEvictable = true)
    (h1 : ¬ e.2.getKDistance ct > acc.1) (h2 : ¬ e.2.getKDistance ct = acc.1) :
    evictStep ct acc e = acc := by
  simp [evictStep, hev, h1, h2]

/-- Scan invariant, from an accumulator that already holds a genuine
candidate `f` with nonzero k-distance: the scan ends on a candidate `g`
that beats `f` and every evictable node of the remaining list. -/
theorem evictScan_sound (ct : Nat) :
    ∀ (nodes : List (Nat × LRUKNode)) (f : Nat × LRUKNode),
      1 ≤ f.2.getKDistance ct →
      ∃ g : Nat × LRUKNode,
        nodes.foldl (evictStep ct)
            (f.2.getKDistance ct, f.2.getEarlyTimestamp, (f.1 : Int))
          = (g.2.getKDistance ct, g.2.getEarlyTimestamp, (g.1 : Int)) ∧
        1 ≤ g.2.getKDistance ct ∧
        (g = f ∨ (g ∈ nodes ∧ g.2.isEvictable = true)) ∧
        Beats ct g.2 f.2 ∧
        ∀ h ∈ nodes, h.2.isEvictable = true → Beats ct g.2 h.2 := by
  intro nodes
  induction nodes with
  | nil =>
      intro f hf
      exact ⟨f, rfl, hf, Or.inl rfl, beats_refl _ _, by simp⟩
  | cons e t ih =>
      intro f hf
      rw [List.foldl_cons]
      by_cases hev : e.2.isEvictable = true
      · by_cases hgt : e.2.getKDistance ct > f.2.getKDistance ct
        · rw [evictStep_gt ct _ e hev hgt]
          obtain ⟨g, hg1, hg2, hg3, hg4, hg5⟩ := ih e (le_trans hf (le_of_lt hgt))
          refine ⟨g, hg1, hg2, ?_, ?_, ?_⟩
          · rcases hg3 with rfl | ⟨hmem, hgev⟩
            · exact Or.inr ⟨List.mem_cons_self _ _, hev⟩
            · exact Or.inr ⟨List.mem_cons_of_mem _ hmem, hgev⟩
          · exact beats_trans ct g.2 e.2 f.2 hg4 (Or.inl hgt)
          · intro h hmem hhev
            rcases List.mem_cons.mp hmem with rfl | hmem
            · exact hg4
            · exact hg5 h hmem hhev
        · by_cases heq : e.2.getKDistance ct = f.2.getKDistance ct
          · by_cases hearly : f.2.getEarlyTimestamp > e.2.getEarlyTimestamp
            · have hstep := evictStep_tie_better ct
                (f.2.getKDistance ct, f.2.getEarlyTimestamp, (f.1 : Int)) e hev hgt heq hearly
              rw [hstep, show (f.2.getKDistance ct, e.2.getEarlyTimestamp, (e.1 : Int))
                    = (e.2.getKDistance ct, e.2.getEarlyTimestamp, (e.1 : Int)) by rw [heq]]
              obtain ⟨g, hg1, hg2, hg3, hg4, hg5⟩ := ih e (heq ▸ hf)
              refine ⟨g, hg1, hg2, ?_, ?_, ?_⟩
              · rcases hg3 with rfl | ⟨hmem, hgev⟩
                · exact Or.inr ⟨List.mem_cons_self _ _, hev⟩
                · exact Or.inr ⟨List.mem_cons_of_mem _ hmem, hgev⟩
              · exact beats_trans ct g.2 e.2 f.2 hg4
                  (Or.inr ⟨heq.symm, le_of_lt hearly⟩)
              · intro h hmem hhev
                rcases List.mem_cons.mp hmem with rfl | hmem
                · exact hg4
                · exact hg5 h hmem hhev
            · rw [evictStep_tie_keep ct _ e hev hgt heq hearly]
              obtain ⟨g, hg1, hg2, hg3, hg4, hg5⟩ := ih f hf
              refine ⟨g, hg1, hg2, ?_, hg4, ?_⟩
              · rcases hg3 with rfl | ⟨hmem, hgev⟩
                · exact Or.inl rfl
                · exact Or.inr ⟨List.mem_cons_of_mem _ hmem, hgev⟩
              · intro h hmem hhev
                rcases List.mem_cons.mp hmem with rfl | hmem
                · exact beats_trans ct g.2 f.2 h.2 hg4
                    (Or.inr ⟨heq, not_lt.mp hearly⟩)
                · exact hg5 h hmem hhev
          · rw [evictStep_lt ct _ e hev hgt heq]
            have hlt : e.2.getKDistance ct < f.2.getKDistance ct :=
              lt_of_le_of_ne (not_lt.mp hgt) heq
            obtain ⟨g, hg1, hg2, hg3, hg4, hg5⟩ := ih f hf
            refine ⟨g, hg1, hg2, ?_, hg4, ?_⟩
            · rcases hg3 with rfl | ⟨hmem, hgev⟩
              · exact Or.inl rfl
              · exact Or.inr ⟨List.mem_cons_of_mem _ hmem, hgev⟩
            · intro h hmem hhev
              rcases List.mem_cons.mp hmem with rfl | hmem
              · exact beats_trans ct g.2 f.2 h.2 hg4 (Or.inl hlt)
              · exact hg5 h hmem hhev
      · have hev' : e.2.isEvictable = false := by
          cases he : e.2.isEvictable
          · rfl
          · exact absurd he hev
        rw [evictStep_skip ct _ e hev']
        obtain ⟨g, hg1, hg2, hg3, hg4, hg5⟩ := ih f hf
        refine ⟨g, hg1, hg2, ?_, hg4, ?_⟩
        · rcases hg3 with rfl | ⟨hmem, hgev⟩
          · exact Or.inl rfl
          · exact Or.inr ⟨List.mem_cons_of_mem _ hmem, hgev⟩
        · intro h hmem hhev
          rcases List.mem_cons.mp hmem with rfl | hmem
          · exact absurd hhev (by rw [hev']; exact Bool.false_ne_true)
          · exact hg5 h hmem hhev

/-- From the initial accumulator `(0, junk, -1)` — for any contents of the
uninitialized `early_timestamp` and of `evict_id` — as soon as some
evictable node has nonzero k-distance, the scan ends on an evictable node
of the list that beats every evictable node. -/
theorem evictScan_from_init (ct : Nat) :
    ∀ (nodes : List (Nat × LRUKNode)) (e0 : Nat) (i0 : Int),
      (∃ p ∈ nodes, p.2.isEvictable = true ∧ 1 ≤ p.2.getKDistance ct) →
      ∃ g : Nat × LRUKNode,
        nodes.foldl (evictStep ct) (0, e0, i0)
          = (g.2.getKDistance ct, g.2.getEarlyTimestamp, (g.1 : Int)) ∧
        1 ≤ g.2.getKDistance ct ∧
        g ∈ nodes ∧ g.2.isEvictable = true ∧
        ∀ h ∈ nodes, h.2.isEvictable = true → Beats ct g.2 h.2 := by
  intro nodes
  induction nodes with
  | nil =>
      intro e0 i0 hpos
      obtain ⟨p, hp, _⟩ := hpos
      exact absurd hp (List.not_mem_nil p)
  | cons e t ih =>
      intro e0 i0 hpos
      rw [List.foldl_cons]
      by_cases hev : e.2.isEvictable = true
      · by_cases hpose : 1 ≤ e.2.getKDistance ct
        · rw [show evictStep ct (0, e0, i0) e
                = (e.2.getKDistance ct, e.2.getEarlyTimestamp, (e.1 : Int)) from
              evictStep_gt ct (0, e0, i0) e hev hpose]
          obtain ⟨g, hg1, hg2, hg3, hg4, hg5⟩ := evictScan_sound ct t e hpose
          refine ⟨g, hg1, hg2, ?_, ?_, ?_⟩
          · rcases hg3 with rfl | ⟨hmem, _⟩
            · exact List.mem_cons_self _ _
            · exact List.mem_cons_of_mem _ hmem
          · rcases hg3 with rfl | ⟨_, hgev⟩
            · exact hev
            · exact hgev
          · intro h hmem hhev
            rcases List.mem_cons.mp hmem with rfl | hmem
            · exact hg4
            · exact hg5 h hmem hhev
        · have hz : e.2.getKDistance ct = 0 := by omega
          have hpos' : ∃ p ∈ t, p.2.isEvictable = true ∧ 1 ≤ p.2.getKDistance ct := by
            obtain ⟨p, hp, hp1, hp2⟩ := hpos
            rcases List.mem_cons.mp hp with rfl | hp
            · exact absurd hp2 hpose
            · exact ⟨p, hp, hp1, hp2⟩
          have hstep : ∃ e1 : Nat, ∃ i1 : Int,
              evictStep ct (0, e0, i0) e = (0, e1, i1) := by
            by_cases hearly : e0 > e.2.getEarlyTimestamp
            · exact ⟨e.2.getEarlyTimestamp, (e.1 : Int),
                evictStep_tie_better ct (0, e0, i0) e hev (by omega) hz hearly⟩
            · exact ⟨e0, i0, evictStep_tie_keep ct (0, e0, i0) e hev (by omega) hz hearly⟩
          obtain ⟨e1, i1, hstep⟩ := hstep
          rw [hstep]
          obtain ⟨g, hg1, hg2, hg3, hg4, hg5⟩ := ih e1 i1 hpos'
          refine ⟨g, hg1, hg2, List.mem_cons_of_mem _ hg3, hg4, ?_⟩
          intro h hmem hhev
          rcases List.mem_cons.mp hmem with rfl | hmem
          · exact Or.inl (by omega)
          · exact hg5 h hmem hhev
      · have hev' : e.2.isEvictable = false := by
          cases he : e.2.isEvictable
          · rfl
          · exact absurd he hev
        rw [evictStep_skip ct _ e hev']
        have hpos' : ∃ p ∈ t, p.2.isEvictable = true ∧ 1 ≤ p.2.getKDistance ct := by
          obtain ⟨p, hp, hp1, hp2⟩ := hpos
          rcases List.mem_cons.mp hp with rfl | hp
          · exact absurd hp1 (by rw [hev']; exact Bool.false_ne_true)
          · exact ⟨p, hp, hp1, hp2⟩
        obtain ⟨g, hg1, hg2, hg3, hg4, hg5⟩ := ih e0 i0 hpos'
        refine ⟨g, hg1, hg2, List.mem_cons_of_mem _ hg3, hg4, ?_⟩
        intro h hmem hhev
        rcases List.mem_cons.mp hmem with rfl | hmem
        · exact absurd hhev (by rw [hev']; exact Bool.false_ne_true)
        · exact hg5 h hmem hhev

/-- The scan's result does not depend on the indeterminate initial
`early_timestamp` (or the `-1` sentinel) once some evictable node has
nonzero k-distance: the first such node overwrites the whole accumulator. -/
theorem evictScan_junk_indep (ct : Nat) :
    ∀ (nodes : List (Nat × LRUKNode)) (e0 e1 : Nat) (i0 i1 : Int),
      (∃ p ∈ nodes, p.2.isEvictable = true ∧ 1 ≤ p.2.getKDistance ct) →
      nodes.foldl (evictStep ct) (0, e0, i0)
        = nodes.foldl (evictStep ct) (0, e1, i1) := by
  intro nodes
  induction nodes with
  | nil =>
      intro e0 e1 i0 i1 hpos
      obtain ⟨p, hp, _⟩ := hpos
      exact absurd hp (List.not_mem_nil p)
  | cons e t ih =>
      intro e0 e1 i0 i1 hpos
      rw [List.foldl_cons, List.foldl_cons]
      by_cases hev : e.2.isEvictable = true
      · by_cases hpose : 1 ≤ e.2.getKDistance ct
        · rw [evictStep_gt ct (0, e0, i0) e hev hpose,
            evictStep_gt ct (0, e1, i1) e hev hpose]
        · have hz : e.2.getKDistance ct = 0 := by omega
          have hpos' : ∃ p ∈ t, p.2.isEvictable = true ∧ 1 ≤ p.2.getKDistance ct := by
            obtain ⟨p, hp, hp1, hp2⟩ := hpos
            rcases List.mem_cons.mp hp with rfl | hp
            · exact absurd hp2 hpose
            · exact ⟨p, hp, hp1, hp2⟩
          have h0 : ∃ ea : Nat, ∃ ia : Int,
              evictStep ct (0, e0, i0) e = (0, ea, ia) := by
            by_cases hearly : e0 > e.2.getEarlyTimestamp
            · exact ⟨_, _, evictStep_tie_better ct (0, e0, i0) e hev (by omega) hz hearly⟩
            · exact ⟨_, _, evictStep_tie_keep ct (0, e0, i0) e hev (by omega) hz hearly⟩
          have h1 : ∃ eb : Nat, ∃ ib : Int,
              evictStep ct (0, e1, i1) e = (0, eb, ib) := by
            by_cases hearly : e1 > e.2.getEarlyTimestamp
            · exact ⟨_, _, evictStep_tie_better ct (0, e1, i1) e hev (by omega) hz hearly⟩
            · exact ⟨_, _, evictStep_tie_keep ct (0, e1, i1) e hev (by omega) hz hearly⟩
          obtain ⟨ea, ia, h0⟩ := h0
          obtain ⟨eb, ib, h1⟩ := h1
          rw [h0, h1]
          exact ih ea eb ia ib hpos'
      · have hev' : e.2.isEvictable = false := by
          cases he : e.2.isEvictable
          · rfl
          · exact absurd he hev
        rw [evictStep_skip ct _ e hev', evictStep_skip ct _ e hev']
        have hpos' : ∃ p ∈ t, p.2.isEvictable = true ∧ 1 ≤ p.2.getKDistance ct := by
          obtain ⟨p, hp, hp1, hp2⟩ := hpos
          rcases List.mem_cons.mp hp with rfl | hp
          · exact absurd hp1 (by rw [hev']; exact Bool.false_ne_true)
          · exact ⟨p, hp, hp1, hp2⟩
        exact ih e0 e1 i0 i1 hpos'

/-- `Evict` at the replacer level: with some evictable node of nonzero
k-distance, it returns an evictable tracked frame that beats every
evictable tracked frame in the LRU-K order, whatever the uninitialized
`early_timestamp` held. -/
theorem evict_selects_best (r : LRUKReplacer) (junk : Nat)
    (hpos : ∃ p ∈ r.nodeStore, p.2.isEvictable = true ∧
      1 ≤ p.2.getKDistance r.currentTimestamp) :
    ∃ g ∈ r.nodeStore, g.2.isEvictable = true ∧
      (r.evict junk).1 = some g.1 ∧
      ∀ h ∈ r.nodeStore, h.2.isEvictable = true →
        Beats r.currentTimestamp g.2 h.2 := by
  obtain ⟨g, hg1, _, hg3, hg4, hg5⟩ :=
    evictScan_from_init r.currentTimestamp r.nodeStore junk (-1) hpos
  refine ⟨g, hg3, hg4, ?_, hg5⟩
  have hne : ((g.1 : Int) = -1) = False := by
    simp only [eq_iff_iff, iff_false]
    intro hc
    have := Int.natCast_nonneg g.1
    omega
  simp only [LRUKReplacer.evict, hg1, hne, if_false]
  simp

theorem evict_junk_indep (r : LRUKReplacer) (junk : Nat)
    (hpos : ∃ p ∈ r.nodeStore, p.2.isEvictable = true ∧
      1 ≤ p.2.getKDistance r.currentTimestamp) :
    r.evict junk = r.evict 0 := by
  simp only [LRUKReplacer.evict]
  rw [evictScan_junk_indep r.currentTimestamp r.nodeStore junk 0 (-1) (-1) hpos]

/-- Some evictable node has nonzero k-distance (decidable form). -/
def hasPositiveEvictable (r : LRUKReplacer) : Bool :=
  r.nodeStore.any
    (fun p => p.2.isEvictable && decide (1 ≤ p.2.getKDistance r.currentTimestamp))

theorem hasPositiveEvictable_iff (r : LRUKReplacer) :
    hasPositiveEvictable r = true ↔
      ∃ p ∈ r.nodeStore, p.2.isEvictable = true ∧
        1 ≤ p.2.getKDistance r.currentTimestamp := by
  simp [hasPositiveEvictable, List.any_eq_true]

/-- The outputs of `n` successive `Evict` calls. -/
def evictSeq (junk : Nat) : Nat → LRUKReplacer → List (Option Nat)
  | 0, _ => []
  | n + 1, r => (r.evict junk).1 :: evictSeq junk n (r.evict junk).2

/-- Along `n` `Evict` calls, every intermediate state keeps an evictable
node of nonzero k-distance. -/
def goodChain : Nat → LRUKReplacer → Bool
  | 0, _ => true
  | n + 1, r => hasPositiveEvictable r && goodChain n (r.evict 0).2

theorem evictSeq_junk_indep :
    ∀ (n : Nat) (junk : Nat) (r : LRUKReplacer), goodChain n r = true →
      evictSeq junk n r = evictSeq 0 n r := by
  intro n
  induction n with
  | zero => intro junk r _; rfl
  | succ n ih =>
      intro junk r h
      rw [goodChain, Bool.and_eq_true] at h
      have he : r.evict junk = r.evict 0 :=
        evict_junk_indep r junk ((hasPositiveEvictable_iff r).mp h.1)
      rw [evictSeq, evictSeq, he]
      exact congrArg _ (ih junk _ h.2)

/-- The spec's concrete replacer scenario, built through the source
operations: k = 2, capacity 7, `RecordAccess` 1,2,3,4,1,2,3,4,5,6, then
`SetEvictable(true)` on frames 1..6. -/
def scenarioState : Option LRUKReplacer :=
  (([1, 2, 3, 4, 1, 2, 3, 4, 5, 6].foldlM
      (fun (r : LRUKReplacer) f => r.recordAccess f)
      { currentTimestamp := 0, nodeStore := [], evictableSize := 0,
        replacerSize := 7, k := 2 })).bind
    (fun r => [1, 2, 3, 4, 5, 6].foldlM (fun r f => r.setEvictable f true) r)

/-- The state the scenario reaches: timestamps 1..10, frames 1-4 with two
remembered accesses, frames 5 and 6 with one. -/
def scenarioReplacer : LRUKReplacer :=
  { currentTimestamp := 10,
    nodeStore :=
      [(1, ⟨2, [5, 1], true⟩), (2, ⟨2, [6, 2], true⟩), (3, ⟨2, [7, 3], true⟩),
       (4, ⟨2, [8, 4], true⟩), (5, ⟨2, [9], true⟩), (6, ⟨2, [10], true⟩)],
    evictableSize := 6, replacerSize := 7, k := 2 }

/-- Claim C4 as amended.  First part: for every replacer state in which at
least one evictable frame has nonzero backward k-distance — all states
except the k = 1 corner in which the single evictable frame is the most
recently accessed one, where the uninitialized `early_timestamp` makes the
outcome indeterminate — and for every value `junk` that uninitialized local
may hold, `Evict` returns an evictable tracked frame whose k-distance
(fewer than k accesses counting as +infinity, embedded as `INF`) is
maximal, and whose oldest remembered access is no later than that of any
evictable frame tying that maximum.  Second part: the spec's k = 2 scenario
1,2,3,4,1,2,3,4,5,6 with frames 1..6 evictable yields the eviction order
5, 6, 1, 2, 3, 4, again for every `junk`. -/
theorem c4_evict_order :
    (∀ (r : LRUKReplacer) (junk : Nat),
        (∃ p ∈ r.nodeStore, p.2.isEvictable = true ∧
          1 ≤ p.2.getKDistance r.currentTimestamp) →
        ∃ g ∈ r.nodeStore, g.2.isEvictable = true ∧
          (r.evict junk).1 = some g.1 ∧
          ∀ h ∈ r.nodeStore, h.2.isEvictable = true →
            Beats r.currentTimestamp g.2 h.2) ∧
    (∀ junk : Nat,
        scenarioState.map (fun r => evictSeq junk 6 r)
          = some [some 5, some 6, some 1, some 2, some 3, some 4]) := by
  constructor
  · intro r junk hpos
    exact evict_selects_best r junk hpos
  · intro junk
    have hS : scenarioState = some scenarioReplacer := by decide
    rw [hS, Option.map_some',
      evictSeq_junk_indep 6 junk scenarioReplacer (by decide)]
    decide

/-- Witness for C4: the selection property applied to the scenario state
itself (frame 5, with fewer than k accesses and the older first access
among the infinite-distance frames, is the victim). -/
theorem c4_evict_order_witness :
    ∃ g ∈ scenarioReplacer.nodeStore, g.2.isEvictable = true ∧
      (scenarioReplacer.evict 0).1 = some g.1 ∧
      ∀ h ∈ scenarioReplacer.nodeStore, h.2.isEvictable = true →
        Beats scenarioReplacer.currentTimestamp g.2 h.2 :=
  c4_evict_order.1 scenarioReplacer 0 (by decide)

/-- The k = 1 corner state for the C4 counterexample: one tracked frame,
evictable, accessed twice (timestamps 1 and 2), current timestamp 2, so its
backward k-distance is 0.  When the uninitialized `early_timestamp` starts
at 0, the tie comparison `early_timestamp > now_early_timestamp` fails and
`evict_id` stays -1. -/
def cornerReplacer : LRUKReplacer :=
  { currentTimestamp := 2,
    nodeStore := [(0, ⟨1, [2, 1], true⟩)],
    evictableSize := 1, replacerSize := 1, k := 1 }

/-- Counterexample to C4 as stated: `cornerReplacer` has an evictable
frame, yet `Evict` (with the uninitialized `early_timestamp` holding 0)
returns no frame at all, in particular not the evictable frame of maximum
k-distance. -/
theorem c4_counterexample :
    (cornerReplacer.nodeStore.any fun p => p.2.isEvictable) = true ∧
    (cornerReplacer.evict 0).1 = none := by decide

/-- The C3 failing state, parameterized by the value `junk` the
uninitialized `early_timestamp` happens to hold: a single tracked evictable
frame whose one remembered access is the current timestamp `junk + 2`
(k = 1), so its k-distance is 0. -/
def rbadC3 (junk : Nat) : LRUKReplacer :=
  { currentTimestamp := junk + 2,
    nodeStore := [(0, { k := 1, history := [junk + 2], isEvictable := true })],
    evictableSize := 1, replacerSize := 1, k := 1 }

/-- Claim C3 evaluated at its failing input: for every value of the
uninitialized `early_timestamp`, the state `rbadC3 junk` has an evictable
tracked frame, yet `Evict` returns ok = false: the frame's k-distance 0
never exceeds the accumulator's initial `mx_k_distance = 0`, and the tie
branch compares the frame's earliest timestamp `junk + 2` against the
uninitialized `junk`, so `evict_id` keeps its `-1` sentinel. -/
theorem c3_evict_false_with_evictable_frame :
    ∀ junk : Nat,
      ((rbadC3 junk).nodeStore.any fun p => p.2.isEvictable) = true ∧
      ((rbadC3 junk).evict junk).1 = none := by
  intro junk
  refine ⟨rfl, ?_⟩
  have hd : LRUKNode.getKDistance ⟨1, [junk + 2], true⟩ (junk + 2) = 0 := by
    simp [LRUKNode.getKDistance]
  have hstep : evictStep (junk + 2) (0, junk, -1)
      (0, ⟨1, [junk + 2], true⟩) = (0, junk, -1) := by
    rw [evictStep_tie_keep (junk + 2) (0, junk, -1) (0, ⟨1, [junk + 2], true⟩)
      rfl (by rw [hd]; omega) hd ?_]
    show ¬ junk > LRUKNode.getEarlyTimestamp ⟨1, [junk + 2], true⟩
    simp [LRUKNode.getEarlyTimestamp]
  simp only [LRUKReplacer.evict, rbadC3, List.foldl_cons, List.foldl_nil, hstep]
  rfl

/-! ### Page guards (src/storage/page/page_guard.cpp)

A guard is embedded as its three data members; `page_` and `bpm_` being
null pointers become `pageId = none` and `bpmValid = false` (the header
`page_guard.h` is absent from the source files; per the spec a guard is
active iff it holds a frame, and the default-constructed guard is inert).
The buffer pool is reduced to the per-page state the guard operations
touch: pin count, dirty flag and the frame's reader-writer latch.
`UnpinPage` is modelled from the spec (the buffer pool implementation is
absent from the source files): unpinning a pinned resident page decrements
its pin count and ORs the dirty flag.  An operation that dereferences a
null `page_` or `bpm_` pointer returns the `nullDeref` outcome. -/

structure GPage where
  pinCount : Nat
  isDirty : Bool
  readLatchCount : Nat
  writeLatched : Bool
deriving DecidableEq, Repr

structure BufferPool where
  pages : Nat → GPage

/-- Modelled from the spec: `BufferPoolManager::UnpinPage` — false if the
pin count is already 0, else decrement it and OR the dirty flag. -/
def unpinPage (pool : BufferPool) (pid : Nat) (isDirty : Bool) :
    BufferPool × Bool :=
  let p := pool.pages pid
  if p.pinCount = 0 then (pool, false)
  else
    (⟨fun q =>
        if q = pid then
          { p with pinCount := p.pinCount - 1, isDirty := p.isDirty || isDirty }
        else pool.pages q⟩,
     true)

/-- Modelled from the spec: the frame's reader-writer latch operations. -/
def rLatch (pool : BufferPool) (pid : Nat) : BufferPool :=
  ⟨fun q =>
    if q = pid then
      { pool.pages pid with readLatchCount := (pool.pages pid).readLatchCount + 1 }
    else pool.pages q⟩

def rUnlatch (pool : BufferPool) (pid : Nat) : BufferPool :=
  ⟨fun q =>
    if q = pid then
      { pool.pages pid with readLatchCount := (pool.pages pid).readLatchCount - 1 }
    else pool.pages q⟩

def wLatch (pool : BufferPool) (pid : Nat) : BufferPool :=
  ⟨fun q =>
    if q = pid then { pool.pages pid with writeLatched := true }
    else pool.pages q⟩

def wUnlatch (pool : BufferPool) (pid : Nat) : BufferPool :=
  ⟨fun q =>
    if q = pid then { pool.pages pid with writeLatched := false }
    else pool.pages q⟩

/-- Outcome of a guard operation: `nullDeref` embeds a null-pointer
dereference (an undefined operation that aborts nothing deliberately). -/
inductive GuardOutcome (α : Type) where
  | ok (a : α)
  | nullDeref
deriving DecidableEq, Repr

def GuardOutcome.getOk? : GuardOutcome α → Option α
  | .ok a => some a
  | .nullDeref => none

def GuardOutcome.isNullDeref : GuardOutcome α → Bool
  | .ok _ => false
  | .nullDeref => true

structure BasicPageGuard where
  bpmValid : Bool
  pageId : Option Nat
  isDirty : Bool
deriving DecidableEq, Repr

/-- The default-constructed guard of the absent header: both pointers null. -/
def defaultBasicGuard : BasicPageGuard :=
  { bpmValid := false, pageId := none, isDirty := false }

structure ReadPageGuard where
  guard : BasicPageGuard
deriving DecidableEq, Repr

structure WritePageGuard where
  guard : BasicPageGuard
deriving DecidableEq, Repr

/-- `BasicPageGuard::Drop` (source lines 17-26): read
`page_->GetPinCount()`, unpin through `bpm_` when it is nonzero, then null
both pointers. -/
def BasicPageGuard.drop (g : BasicPageGuard) (pool : BufferPool) :
    GuardOutcome (BasicPageGuard × BufferPool) :=
  match g.pageId with
  | none => .nullDeref
  | some pid =>
      if (pool.pages pid).pinCount ≠ 0 then
        if g.bpmValid then
          .ok ({ g with bpmValid := false, pageId := none },
               (unpinPage pool pid g.isDirty).1)
        else .nullDeref
      else .ok ({ g with bpmValid := false, pageId := none }, pool)

/-- `BasicPageGuard::~BasicPageGuard` (source lines 45-49): `Drop` only when
both pointers are non-null. -/
def BasicPageGuard.destruct (g : BasicPageGuard) (pool : BufferPool) :
    GuardOutcome BufferPool :=
  if g.bpmValid && g.pageId.isSome then
    match g.drop pool with
    | .ok (_, pool1) => .ok pool1
    | .nullDeref => .nullDeref
  else .ok pool

/-- `BasicPageGuard::BasicPageGuard(BasicPageGuard &&)` (source lines 6-15):
copy the three members, then null the source's pointers.  Yields
(destination, moved-from source). -/
def BasicPageGuard.moveCtor (src : BasicPageGuard) :
    BasicPageGuard × BasicPageGuard :=
  (⟨src.bpmValid, src.pageId, src.isDirty⟩,
   { src with bpmValid := false, pageId := none })

/-- `BasicPageGuard::operator=(BasicPageGuard &&)` (source lines 28-43):
read `this->page_->GetPinCount()` (a null dereference when the destination
is inert), unpin the destination's page when pinned, take the source's
members, null the source's pointers.  Yields (destination, source, pool). -/
def BasicPageGuard.moveAssign (dst src : BasicPageGuard) (pool : BufferPool) :
    GuardOutcome (BasicPageGuard × BasicPageGuard × BufferPool) :=
  match dst.pageId with
  | none => .nullDeref
  | some pid =>
      if (pool.pages pid).pinCount ≠ 0 then
        if dst.bpmValid then
          .ok (⟨src.bpmValid, src.pageId, src.isDirty⟩,
               { src with bpmValid := false, pageId := none },
               (unpinPage pool pid dst.isDirty).1)
        else .nullDeref
      else
        .ok (⟨src.bpmValid, src.pageId, src.isDirty⟩,
             { src with bpmValid := false, pageId := none }, pool)

/-- `BasicPageGuard::UpgradeRead` (source lines 51-54): `page_->RLatch()`,
then return `{bpm_, page_}` — the members of `this` are not nulled, so the
basic guard stays exactly as it was.  Yields (read guard, the basic guard
after the call, pool).  The `ReadPageGuard(bpm, page)` constructor of the
absent header starts with a clean dirty flag. -/
def BasicPageGuard.upgradeRead (g : BasicPageGuard) (pool : BufferPool) :
    GuardOutcome (ReadPageGuard × BasicPageGuard × BufferPool) :=
  match g.pageId with
  | none => .nullDeref
  | some pid => .ok (⟨⟨g.bpmValid, g.pageId, false⟩⟩, g, rLatch pool pid)

/-- `BasicPageGuard::UpgradeWrite` (source lines 55-58). -/
def BasicPageGuard.upgradeWrite (g : BasicPageGuard) (pool : BufferPool) :
    GuardOutcome (WritePageGuard × BasicPageGuard × BufferPool) :=
  match g.pageId with
  | none => .nullDeref
  | some pid => .ok (⟨⟨g.bpmValid, g.pageId, false⟩⟩, g, wLatch pool pid)

/-- `ReadPageGuard::Drop` (source lines 67-78): unpin when the pin count is
nonzero, then `RUnlatch`, then null the inner guard's pointers. -/
def ReadPageGuard.drop (rg : ReadPageGuard) (pool : BufferPool) :
    GuardOutcome (ReadPageGuard × BufferPool) :=
  match rg.guard.pageId with
  | none => .nullDeref
  | some pid =>
      let unpinned :=
        if (pool.pages pid).pinCount ≠ 0 then
          if rg.guard.bpmValid then
            GuardOutcome.ok (unpinPage pool pid rg.guard.isDirty).1
          else GuardOutcome.nullDeref
        else GuardOutcome.ok pool
      match unpinned with
      | .nullDeref => .nullDeref
      | .ok pool1 =>
          .ok (⟨{ rg.guard with bpmValid := false, pageId := none }⟩,
               rUnlatch pool1 pid)

/-- `ReadPageGuard::~ReadPageGuard` (source lines 80-84). -/
def ReadPageGuard.destruct (rg : ReadPageGuard) (pool : BufferPool) :
    GuardOutcome BufferPool :=
  if rg.guard.pageId.isSome && rg.guard.bpmValid then
    match rg.drop pool with
    | .ok (_, pool1) => .ok pool1
    | .nullDeref => .nullDeref
  else .ok pool

/-- `ReadPageGuard::ReadPageGuard(ReadPageGuard &&)` (source line 60):
`this->guard_ = std::move(that.guard_)` — a move *assignment* onto the
default-constructed (inert) inner guard. -/
def ReadPageGuard.moveCtor (src : ReadPageGuard) (pool : BufferPool) :
    GuardOutcome (ReadPageGuard × ReadPageGuard × BufferPool) :=
  match BasicPageGuard.moveAssign defaultBasicGuard src.guard pool with
  | .nullDeref => .nullDeref
  | .ok (d, s, pool1) => .ok (⟨d⟩, ⟨s⟩, pool1)

/-- `ReadPageGuard::operator=(ReadPageGuard &&)` (source lines 62-65):
delegates to the inner guards' move assignment — no `RUnlatch`. -/
def ReadPageGuard.moveAssign (dst src : ReadPageGuard) (pool : BufferPool) :
    GuardOutcome (ReadPageGuard × ReadPageGuard × BufferPool) :=
  match BasicPageGuard.moveAssign dst.guard src.guard pool with
  | .nullDeref => .nullDeref
  | .ok (d, s, pool1) => .ok (⟨d⟩, ⟨s⟩, pool1)

/-- `WritePageGuard::Drop` (source lines 93-104). -/
def WritePageGuard.drop (wg : WritePageGuard) (pool : BufferPool) :
    GuardOutcome (WritePageGuard × BufferPool) :=
  match wg.guard.pageId with
  | none => .nullDeref
  | some pid =>
      let unpinned :=
        if (pool.pages pid).pinCount ≠ 0 then
          if wg.guard.bpmValid then
            GuardOutcome.ok (unpinPage pool pid wg.guard.isDirty).1
          else GuardOutcome.nullDeref
        else GuardOutcome.ok pool
      match unpinned with
      | .nullDeref => .nullDeref
      | .ok pool1 =>
          .ok (⟨{ wg.guard with bpmValid := false, pageId := none }⟩,
               wUnlatch pool1 pid)

/-- `WritePageGuard::~WritePageGuard` (source lines 106-110). -/
def WritePageGuard.destruct (wg : WritePageGuard) (pool : BufferPool) :
    GuardOutcome BufferPool :=
  if wg.guard.pageId.isSome && wg.guard.bpmValid then
    match wg.drop pool with
    | .ok (_, pool1) => .ok pool1
    | .nullDeref => .nullDeref
  else .ok pool

/-- `WritePageGuard::WritePageGuard(WritePageGuard &&)` (source line 86). -/
def WritePageGuard.moveCtor (src : WritePageGuard) (pool : BufferPool) :
    GuardOutcome (WritePageGuard × WritePageGuard × BufferPool) :=
  match BasicPageGuard.moveAssign defaultBasicGuard src.guard pool with
  | .nullDeref => .nullDeref
  | .ok (d, s, pool1) => .ok (⟨d⟩, ⟨s⟩, pool1)

/-- `WritePageGuard::operator=(WritePageGuard &&)` (source lines 88-91). -/
def WritePageGuard.moveAssign (dst src : WritePageGuard) (pool : BufferPool) :
    GuardOutcome (WritePageGuard × WritePageGuard × BufferPool) :=
  match BasicPageGuard.moveAssign dst.guard src.guard pool with
  | .nullDeref => .nullDeref
  | .ok (d, s, pool1) => .ok (⟨d⟩, ⟨s⟩, pool1)

/-! ### Theorems on the page guards -/

/-- A pool whose page 0 is pinned once, clean and unlatched. -/
def poolPinned : BufferPool :=
  ⟨fun _ => { pinCount := 1, isDirty := false, readLatchCount := 0, writeLatched := false }⟩

/-- An active basic guard on page 0. -/
def basicG0 : BasicPageGuard := { bpmValid := true, pageId := some 0, isDirty := false }

/-- Claim C5 evaluated at its failing input.  `UpgradeRead` on the active
basic guard `basicG0` takes the shared latch and returns a read guard on
page 0 — but it does not null the basic guard's members, so the basic
guard stays active (`pageId` still `some 0`, `bpm_` still set); destroying
the basic guard afterwards, as happens to the temporary in
`bpm->FetchPageBasic(id).UpgradeRead()`, unpins the page and drops its pin
count to 0 while the returned read guard still holds it.  The same holds
for `UpgradeWrite`.  (The repository's own test MyTest1 expects a pin
count of 1 exactly there.) -/
theorem c5_upgrade_leaves_basic_guard_active :
    ((basicG0.upgradeRead poolPinned).getOk?).map
        (fun r => (r.1.guard.pageId, r.2.1.pageId, r.2.1.bpmValid,
          (r.2.2.pages 0).readLatchCount, (r.2.2.pages 0).pinCount))
      = some (some 0, some 0, true, 1, 1) ∧
    (((basicG0.upgradeRead poolPinned).getOk?).bind
        (fun r => (r.2.1.destruct r.2.2).getOk?)).map
        (fun pool => ((pool.pages 0).pinCount, (pool.pages 0).readLatchCount))
      = some (0, 1) ∧
    ((basicG0.upgradeWrite poolPinned).getOk?).map
        (fun r => (r.2.1.pageId, r.2.1.bpmValid))
      = some (some 0, true) ∧
    (((basicG0.upgradeWrite poolPinned).getOk?).bind
        (fun r => (r.2.1.destruct r.2.2).getOk?)).map
        (fun pool => (pool.pages 0).pinCount)
      = some 0 := by
  decide

/-- A pool whose pages 0 and 1 are pinned once and hold one shared latch. -/
def poolTwoRead : BufferPool :=
  ⟨fun pid =>
    if pid = 0 ∨ pid = 1 then
      { pinCount := 1, isDirty := false, readLatchCount := 1, writeLatched := false }
    else { pinCount := 0, isDirty := false, readLatchCount := 0, writeLatched := false }⟩

/-- A pool whose pages 0 and 1 are pinned once and exclusively latched. -/
def poolTwoWrite : BufferPool :=
  ⟨fun pid =>
    if pid = 0 ∨ pid = 1 then
      { pinCount := 1, isDirty := false, readLatchCount := 0, writeLatched := true }
    else { pinCount := 0, isDirty := false, readLatchCount := 0, writeLatched := false }⟩

/-- An already-dropped (inert) basic guard. -/
def droppedBasic : BasicPageGuard := { bpmValid := false, pageId := none, isDirty := false }

def basicG1 : BasicPageGuard := { bpmValid := true, pageId := some 1, isDirty := false }

def readDst : ReadPageGuard := ⟨{ bpmValid := true, pageId := some 0, isDirty := false }⟩
def readSrc : ReadPageGuard := ⟨{ bpmValid := true, pageId := some 1, isDirty := false }⟩
def writeDst : WritePageGuard := ⟨{ bpmValid := true, pageId := some 0, isDirty := false }⟩
def writeSrc : WritePageGuard := ⟨{ bpmValid := true, pageId := some 1, isDirty := false }⟩

/-- Claim C6 evaluated at its failing inputs.
(a) Basic-guard move assignment onto an already-dropped destination — the
situation the repository's own test MyTest2 exercises — dereferences the
destination's null `page_` instead of being a well-defined no-release
assignment.
(b) Read-guard move assignment releases the destination's pin but not its
shared latch (the pool still records it), while destruction of that same
destination guard releases both — so the destination's resources are not
released "as on destruction".
(c) The read-guard move constructor move-assigns onto its
default-constructed inner guard and therefore dereferences a null `page_`
on every use; (d)-(e) the write-guard analogues. -/
theorem c6_move_semantics_broken :
    (BasicPageGuard.moveAssign droppedBasic basicG1 poolTwoRead).isNullDeref = true ∧
    ((ReadPageGuard.moveAssign readDst readSrc poolTwoRead).getOk?).map
        (fun r => ((r.2.2.pages 0).pinCount, (r.2.2.pages 0).readLatchCount))
      = some (0, 1) ∧
    ((readDst.destruct poolTwoRead).getOk?).map
        (fun pool => ((pool.pages 0).pinCount, (pool.pages 0).readLatchCount))
      = some (0, 0) ∧
    (ReadPageGuard.moveCtor readSrc poolTwoRead).isNullDeref = true ∧
    ((WritePageGuard.moveAssign writeDst writeSrc poolTwoWrite).getOk?).map
        (fun r => ((r.2.2.pages 0).pinCount, (r.2.2.pages 0).writeLatched))
      = some (0, true) ∧
    ((writeDst.destruct poolTwoWrite).getOk?).map
        (fun pool => ((pool.pages 0).pinCount, (pool.pages 0).writeLatched))
      = some (0, false) ∧
    (WritePageGuard.moveCtor writeSrc poolTwoWrite).isNullDeref = true := by
  decide

/-- Claim C7 evaluated at its failing input.  The first `Drop` on the
active guard `basicG0` releases the pin and nulls both members; calling
`Drop` again on the now-inert guard dereferences the null `page_` pointer
(`this->page_->GetPinCount()`, source line 19): an undefined operation,
not a detected assertion failure — no `BUSTUB_ASSERT` guards any path of
`Drop`. -/
theorem c7_double_drop_is_null_deref :
    ((basicG0.drop poolPinned).getOk?).map
        (fun r => (r.1.pageId, r.1.bpmValid, (r.2.pages 0).pinCount))
      = some (none, false, 0) ∧
    ((basicG0.drop poolPinned).getOk?).map
        (fun r => (r.1.drop r.2).isNullDeref)
      = some true := by
  decide

/-! ### Disk scheduler (src/storage/disk/disk_scheduler.cpp)

The shared `Channel<std::optional<DiskRequest>>` is a FIFO queue (modelled
from the spec: "multi-producer, single-consumer queue"; requests are
"processed strictly in enqueue order"), embedded as the list of its
contents in enqueue order.  Each request's single-use `std::promise<bool>`
callback is identified by a request id; executing a request through the
Disk Manager and fulfilling its promise become events in the worker's
trace. -/

structure SchedRequest where
  isWrite : Bool
  pageId : Nat
  reqId : Nat
deriving DecidableEq, Repr

inductive SchedEvent where
  | readPage (pid : Nat)
  | writePage (pid : Nat)
  | fulfill (reqId : Nat) (value : Bool)
deriving DecidableEq, Repr

/-- The worker's handling of one dequeued request (source lines 46-52):
the read or write through the Disk Manager, then `set_value(true)` on its
callback. -/
def execRequest (r : SchedRequest) : List SchedEvent :=
  [if r.isWrite then .writePage r.pageId else .readPage r.pageId,
   .fulfill r.reqId true]

/-- `DiskScheduler::StartWorkerThread` (source lines 40-54) run over the
queue contents: the trace of events, and whether the loop returned (it
does exactly on popping an empty optional; on an exhausted list the worker
is still blocked in `Get`). -/
def startWorkerThread : List (Option SchedRequest) → List SchedEvent × Bool
  | [] => ([], false)
  | none :: _ => ([], true)
  | some r :: rest =>
      (execRequest r ++ (startWorkerThread rest).1, (startWorkerThread rest).2)

/-- `DiskScheduler::Schedule` (source lines 36-38): enqueue at the back. -/
def schedule (q : List (Option SchedRequest)) (r : SchedRequest) :
    List (Option SchedRequest) :=
  q ++ [some r]

/-- `DiskScheduler::~DiskScheduler` (source lines 28-34): enqueue the
`std::nullopt` shutdown sentinel. -/
def schedulerShutdown (q : List (Option SchedRequest)) :
    List (Option SchedRequest) :=
  q ++ [none]

/-- The requests before the first shutdown sentinel, in enqueue order. -/
def processedPrefix (q : List (Option SchedRequest)) : List SchedRequest :=
  (q.takeWhile Option.isSome).filterMap id

theorem startWorkerThread_events :
    ∀ q : List (Option SchedRequest),
      (startWorkerThread q).1 = (processedPrefix q).flatMap execRequest := by
  intro q
  induction q with
  | nil => rfl
  | cons o rest ih =>
      cases o with
      | none => rfl
      | some r =>
          simp [startWorkerThread, processedPrefix, List.takeWhile] at ih ⊢
          rw [ih]

theorem startWorkerThread_returns :
    ∀ q : List (Option SchedRequest),
      (startWorkerThread q).2 = q.any Option.isNone := by
  intro q
  induction q with
  | nil => rfl
  | cons o rest ih =>
      cases o with
      | none => rfl
      | some r => simp [startWorkerThread, ih]

theorem count_fulfill_in_trace :
    ∀ rs : List SchedRequest, (rs.map SchedRequest.reqId).Nodup →
      ∀ i : Nat,
        (rs.flatMap execRequest).count (SchedEvent.fulfill i true)
          = if i ∈ rs.map SchedRequest.reqId then 1 else 0 := by
  intro rs
  induction rs with
  | nil => intro _ i; rfl
  | cons r rest ih =>
      intro hnd i
      rw [List.map_cons, List.nodup_cons] at hnd
      have hexec : (execRequest r).count (SchedEvent.fulfill i true)
          = if i = r.reqId then 1 else 0 := by
        by_cases hi : i = r.reqId <;>
          cases hw : r.isWrite <;>
            simp [execRequest, hw, List.count_cons, hi]
      rw [List.flatMap_cons, List.count_append, hexec, ih hnd.2 i]
      by_cases hi : i = r.reqId
      · subst hi
        simp [hnd.1]
      · simp [hi]

/-- Claim C9: over any queue contents (requests in enqueue order), the
worker's trace is exactly the concatenation, in enqueue order, of each
request's Disk-Manager I/O followed by fulfilling that request's promise
with true; the loop returns exactly when a shutdown sentinel is present —
in particular after the destructor enqueues one; and, promises being
single-use (distinct request ids), each processed request's promise is
fulfilled exactly once and an unprocessed one never. -/
theorem c9_worker_processes_in_order (q : List (Option SchedRequest)) :
    (startWorkerThread q).1 = (processedPrefix q).flatMap execRequest ∧
    (startWorkerThread q).2 = q.any Option.isNone ∧
    (startWorkerThread (schedulerShutdown q)).2 = true ∧
    (((processedPrefix q).map SchedRequest.reqId).Nodup →
      ∀ i : Nat,
        (startWorkerThread q).1.count (SchedEvent.fulfill i true)
          = if i ∈ (processedPrefix q).map SchedRequest.reqId then 1 else 0) := by
  refine ⟨startWorkerThread_events q, startWorkerThread_returns q, ?_, ?_⟩
  · rw [startWorkerThread_returns]
    simp [schedulerShutdown]
  · intro hnd i
    rw [startWorkerThread_events q]
    exact count_fulfill_in_trace (processedPrefix q) hnd i

/-- Concrete queue for the C9 witness: a write, a read, the shutdown
sentinel, then a request enqueued too late. -/
def schedQ : List (Option SchedRequest) :=
  [some ⟨true, 3, 0⟩, some ⟨false, 4, 1⟩, none, some ⟨true, 9, 2⟩]

/-- Witness for C9 at `schedQ`: the trace is the write to page 3, its
fulfillment, the read of page 4, its fulfillment; the worker returns; the
promise of request 1 fires exactly once and that of the post-sentinel
request 2 never. -/
theorem c9_worker_witness :
    (startWorkerThread schedQ).1
      = [SchedEvent.writePage 3, SchedEvent.fulfill 0 true,
         SchedEvent.readPage 4, SchedEvent.fulfill 1 true] ∧
    (startWorkerThread schedQ).2 = true ∧
    (startWorkerThread schedQ).1.count (SchedEvent.fulfill 1 true) = 1 ∧
    (startWorkerThread schedQ).1.count (SchedEvent.fulfill 2 true) = 0 := by
  have h := c9_worker_processes_in_order schedQ
  refine ⟨?_, ?_, ?_, ?_⟩
  · rw [h.1]; decide
  · rw [h.2.1]; decide
  · rw [h.2.2.2 (by decide) 1]; decide
  · rw [h.2.2.2 (by decide) 2]; decide
